import Mathlib

/-!
Shallow embedding of `src/tf_mushroom.py`.

The script has two parts:

* `prepare_data`: reads a comma-separated file with 23 fixed columns,
  replaces the sentinel `?` by NaN, drops rows containing NaN, maps the
  label column `class` via `replace('p',0)` then `replace('e',1)`,
  one-hot encodes the 22 feature columns with `pd.get_dummies`, randomly
  splits rows into train/test with `train_test_split(df, test_size=0.1)`,
  and writes the two partitions as CSV files whose first line is
  `<row_count>,<feature_count>,<original header>`.
* a main block that builds a `DNNClassifier` with
  `hidden_units=[10,20,10]`, `n_classes=2` and a single real-valued
  feature column, fits, evaluates and predicts.

A CSV file is modelled as a list of lines, each line a list of fields
(pandas' quoting makes the joined text and the field lists carry the
same information).  A dataframe cell is a `Cell`: a string, NaN, or the
integer produced by the label replacement.  The random shuffle performed
by `train_test_split` is modelled by an explicit permutation parameter:
theorems quantify over every permutation of the encoded rows, which
covers every outcome of the unseeded shuffle.
-/

/-- Cell of the pandas dataframe: `np.nan`, a string, or the integer
written into the `class` column by the two `replace` calls. -/
inductive Cell where
  | nan : Cell
  | str (s : String) : Cell
  | int (n : Nat) : Cell
deriving DecidableEq, Repr

/-- The hard-coded 23-column header of `prepare_data`. -/
def header : List String :=
  ["class", "cap_shape", "cap_surface",
   "cap_color", "bruises", "odor", "gill_attachment",
   "gill_spacing", "gill_size", "gill_color", "stalk_shape",
   "stalk_root", "stalk_surface_above_ring",
   "stalk_surface_below_ring", "stalk_color_above_ring",
   "stalk_color_below_ring", "veil_type", "veil_color",
   "ring_number", "ring_type", "spore_print_color",
   "population", "habitat"]

/-- Number of columns of the raw dataframe (23). -/
def numCols : Nat := header.length

/-- `pd.read_csv(..., names=header)` on one raw line: each field becomes a
string cell and missing trailing fields become NaN. -/
def parseRow (r : List String) : List Cell :=
  r.map Cell.str ++ List.replicate (numCols - r.length) Cell.nan

/-- `df.replace('?', np.nan)` on one cell. -/
def replaceQ (c : Cell) : Cell :=
  if c = Cell.str "?" then Cell.nan else c

/-- `df.dropna()`: keep only the rows containing no NaN cell. -/
def dropna (rows : List (List Cell)) : List (List Cell) :=
  rows.filter (fun r => !(decide (Cell.nan ∈ r)))

/-- The cleaned record set: parse, replace the sentinel by NaN, drop the
rows containing any NaN (lines 32-37 of the script). -/
def cleanedRows (input : List (List String)) : List (List Cell) :=
  dropna ((input.map parseRow).map (fun r => r.map replaceQ))

/-- `df['class'].replace('p', 0)` on one cell of the class column. -/
def replaceP (c : Cell) : Cell :=
  if c = Cell.str "p" then Cell.int 0 else c

/-- `df['class'].replace('e', 1)` on one cell of the class column. -/
def replaceE (c : Cell) : Cell :=
  if c = Cell.str "e" then Cell.int 1 else c

/-- Label encoding of one row: the class column (position 0) goes through
the two replacements, the feature columns are untouched. -/
def labelRow (r : List Cell) : List Cell :=
  match r with
  | [] => []
  | c :: t => replaceE (replaceP c) :: t

/-- Label encoding of the whole cleaned frame (lines 43-44). -/
def labelEncode (rows : List (List Cell)) : List (List Cell) :=
  rows.map labelRow

/-- Cell of row `r` in column position `i`. -/
def colCell (r : List Cell) (i : Nat) : Cell :=
  r.getD i Cell.nan

/-- The distinct values observed in column `i` over the frame, one entry
per distinct value (`pd.get_dummies` builds one indicator column per
observed category of the column). -/
def colValues (rows : List (List Cell)) (i : Nat) : List Cell :=
  (rows.map (fun r => colCell r i)).dedup

/-- Indicator block of one row for one categorical column: 1 for the
value the row holds, 0 for every other observed value. -/
def dummyRow (vals : List Cell) (c : Cell) : List Cell :=
  vals.map (fun v => if c = v then Cell.int 1 else Cell.int 0)

/-- String printed by pandas for a cell (used for dummy column names and
CSV emission). -/
def cellStr : Cell → String
  | Cell.nan => ""
  | Cell.str s => s
  | Cell.int n => toString n

/-- Positions of the transformed columns: `cols_to_transform = header[1:]`. -/
def featureIdx : List Nat := List.range' 1 (numCols - 1)

/-- A pandas dataframe: column names plus rows of cells. -/
structure DataFrame where
  cols : List String
  rows : List (List Cell)
deriving DecidableEq, Repr

/-- `pd.get_dummies(df, columns=header[1:])` (line 51): the class column
stays first, every feature column is replaced by one indicator column
per distinct observed value. -/
def getDummies (rows : List (List Cell)) : DataFrame :=
  { cols := "class" :: featureIdx.flatMap
      (fun i => (colValues rows i).map
        (fun v => header.getD i "" ++ "_" ++ cellStr v)),
    rows := rows.map (fun r => colCell r 0 :: featureIdx.flatMap
      (fun i => dummyRow (colValues rows i) (colCell r i))) }

/-- The encoded dataframe produced by steps 1-4 of `prepare_data`. -/
def encodedDf (input : List (List String)) : DataFrame :=
  getDummies (labelEncode (cleanedRows input))

/-- Number of rows the sklearn split puts into the test partition for
`test_size=0.1`: `ceil(0.1 * n)`. -/
def testCount (n : Nat) : Nat := (n + 9) / 10

/-- `train_test_split(rows, test_size=0.1)` (line 56).  `perm` is the
shuffled row list produced by the unseeded random permutation; sklearn
takes the first `ceil(0.1*n)` shuffled rows as the test partition and
the rest as the train partition, and raises `ValueError` when the train
partition would be empty. -/
def trainTestSplit {α : Type} (rows perm : List α) :
    Except String (List α × List α) :=
  let n := rows.length
  let nt := testCount n
  if n - nt = 0 then
    Except.error "ValueError: the resulting train set will be empty"
  else
    Except.ok (perm.drop nt, perm.take nt)

/-- Number of rows of a dataframe (`df.shape[0]`). -/
def shape0 (df : DataFrame) : Nat := df.rows.length

/-- Number of columns of a dataframe (`df.shape[1]`). -/
def shape1 (df : DataFrame) : Nat := df.cols.length

/-- Emission of one partition (lines 60-80): `to_csv` writes the header
line then one line per row; the rewrite prepends
`<row_count>,<feature_count>,` to the file, so the first line becomes
`row_count, feature_count` followed by the original column names, and
the data lines are unchanged. -/
def writeOutput (df : DataFrame) : List (List String) :=
  (toString (shape0 df) :: toString (shape1 df - 1) :: df.cols)
    :: df.rows.map (fun r => r.map cellStr)

/-- The two files produced by `prepare_data`. -/
structure Prepared where
  trainFile : List (List String)
  testFile : List (List String)
deriving DecidableEq, Repr

/-- The whole of `prepare_data`.  `input` is the raw file as a list of
comma-separated lines; `perm` is the shuffled encoded row list chosen by
the unseeded random split.  A raw line with more than 23 fields makes
`pd.read_csv` raise a parser error. -/
def prepareData (input : List (List String)) (perm : List (List Cell)) :
    Except String Prepared :=
  if input.any (fun r => numCols < r.length) then
    Except.error "pandas.errors.ParserError: too many fields"
  else
    let df := encodedDf input
    match trainTestSplit df.rows perm with
    | Except.error e => Except.error e
    | Except.ok (tr, te) =>
        Except.ok { trainFile := writeOutput { cols := df.cols, rows := tr },
                    testFile := writeOutput { cols := df.cols, rows := te } }

/-- First comma-separated field of the first line of an output file: the
`row_count` the script writes there. -/
def writtenRowCount (file : List (List String)) : String :=
  (file.headD []).getD 0 ""

/-- Second comma-separated field of the first line of an output file: the
`feature_count` the script writes there. -/
def writtenFeatureCount (file : List (List String)) : String :=
  (file.headD []).getD 1 ""

/-- Number of data lines following the first line of an output file. -/
def dataLineCount (file : List (List String)) : Nat :=
  file.length - 1

/-- A `tf.contrib.layers.real_valued_column` as configured in the main
block: a name and a dimension. -/
structure FeatureColumn where
  name : String
  dimension : Nat
deriving DecidableEq, Repr

/-- Configuration of a `tf.contrib.learn.DNNClassifier`. -/
structure DNNClassifierConfig where
  featureColumns : List FeatureColumn
  hiddenUnits : List Nat
  nClasses : Nat
  modelDir : String
deriving DecidableEq, Repr

/-- `feature_columns = [tf.contrib.layers.real_valued_column("", dimension=2)]`
(line 109): a single combined real-valued input block. -/
def feature_columns : List FeatureColumn :=
  [{ name := "", dimension := 2 }]

/-- The classifier built at lines 112-116. -/
def classifier : DNNClassifierConfig :=
  { featureColumns := feature_columns,
    hiddenUnits := [10, 20, 10],
    nClasses := 2,
    modelDir := "/tmp/mushroom_model" }

/-! ## Helper lemmas -/

theorem replaceQ_ne_q (c : Cell) : replaceQ c ≠ Cell.str "?" := by
  unfold replaceQ
  split
  · decide
  · assumption

theorem mem_cleanedRows (input : List (List String)) (c : List Cell)
    (h : c ∈ cleanedRows input) :
    Cell.nan ∉ c ∧ Cell.str "?" ∉ c := by
  unfold cleanedRows dropna at h
  have h1 := List.of_mem_filter h
  have h2 := List.mem_of_mem_filter h
  constructor
  · simpa using h1
  · rcases List.mem_map.mp h2 with ⟨r, _, rfl⟩
    intro hq
    rcases List.mem_map.mp hq with ⟨x, _, hx⟩
    exact replaceQ_ne_q x hx

/-! ## C4: rows containing the sentinel are dropped -/

/-- C4: every raw row that contains the missing-value sentinel `?` in any
field is excluded from the cleaned record set, and no row containing the
sentinel survives cleaning. -/
theorem sentinel_rows_dropped (input : List (List String)) (raw : List String)
    (_hmem : raw ∈ input) (hq : "?" ∈ raw) :
    raw.map Cell.str ∉ cleanedRows input ∧
    ∀ c ∈ cleanedRows input, Cell.str "?" ∉ c := by
  constructor
  · intro hc
    exact (mem_cleanedRows input _ hc).2 (List.mem_map_of_mem Cell.str hq)
  · intro c hc
    exact (mem_cleanedRows input c hc).2

def wBadRow : List String := "?" :: List.replicate 22 "a"

/-- Witness for C4 at the concrete one-row input `[wBadRow]`. -/
theorem sentinel_rows_dropped_witness :
    wBadRow.map Cell.str ∉ cleanedRows [wBadRow] ∧
    ∀ c ∈ cleanedRows [wBadRow], Cell.str "?" ∉ c :=
  sentinel_rows_dropped [wBadRow] wBadRow (by decide) (by decide)

/-! ## C1: label encoding -/

def cxRow : List String := "x" :: List.replicate 22 "a"

/-- C1 (counterexample): it is not true that after cleaning and label
encoding every row's label lies in `{0,1}`: a cleaned row whose raw
`class` field is the string `x` keeps the string unchanged. -/
theorem label_not_always_binary_cx :
    ¬ (∀ (input : List (List String)), ∀ r ∈ labelEncode (cleanedRows input),
        colCell r 0 = Cell.int 0 ∨ colCell r 0 = Cell.int 1) := by
  intro h
  have hm : (Cell.str "x" :: List.replicate 22 (Cell.str "a")) ∈
      labelEncode (cleanedRows [cxRow]) := by decide
  have hc := h [cxRow] _ hm
  exact absurd hc (by decide)

/-- C1 (amended): the label encoding maps a cleaned row's `class` value
`p` to `0` and `e` to `1`; hence every cleaned row whose `class` value is
`p` or `e` has an encoded label in `{0,1}`. -/
theorem label_encode_pe_binary (input : List (List String)) (r : List Cell)
    (h : r ∈ cleanedRows input) :
    labelRow r ∈ labelEncode (cleanedRows input) ∧
    (colCell r 0 = Cell.str "p" → colCell (labelRow r) 0 = Cell.int 0) ∧
    (colCell r 0 = Cell.str "e" → colCell (labelRow r) 0 = Cell.int 1) ∧
    ((colCell r 0 = Cell.str "p" ∨ colCell r 0 = Cell.str "e") →
      colCell (labelRow r) 0 = Cell.int 0 ∨ colCell (labelRow r) 0 = Cell.int 1) := by
  have hp0 : colCell r 0 = Cell.str "p" → colCell (labelRow r) 0 = Cell.int 0 := by
    intro hp
    cases r with
    | nil => exact absurd hp (by decide)
    | cons c t =>
        rw [show c = Cell.str "p" from hp]
        rfl
  have he1 : colCell r 0 = Cell.str "e" → colCell (labelRow r) 0 = Cell.int 1 := by
    intro he
    cases r with
    | nil => exact absurd he (by decide)
    | cons c t =>
        rw [show c = Cell.str "e" from he]
        rfl
  exact ⟨List.mem_map_of_mem labelRow h, hp0, he1,
    fun h' => h'.elim (fun hp => Or.inl (hp0 hp)) (fun he => Or.inr (he1 he))⟩

def wRow1 : List String := "p" :: List.replicate 22 "a"

def wRow2 : List String := "e" :: List.replicate 22 "b"

def wInput : List (List String) := [wRow1, wRow2]

def wCleanRow1 : List Cell := Cell.str "p" :: List.replicate 22 (Cell.str "a")

/-- Witness for the amended C1 at the concrete input `wInput`. -/
theorem label_encode_pe_binary_witness :
    labelRow wCleanRow1 ∈ labelEncode (cleanedRows wInput) ∧
    (colCell wCleanRow1 0 = Cell.str "p" →
      colCell (labelRow wCleanRow1) 0 = Cell.int 0) ∧
    (colCell wCleanRow1 0 = Cell.str "e" →
      colCell (labelRow wCleanRow1) 0 = Cell.int 1) ∧
    ((colCell wCleanRow1 0 = Cell.str "p" ∨ colCell wCleanRow1 0 = Cell.str "e") →
      colCell (labelRow wCleanRow1) 0 = Cell.int 0 ∨
      colCell (labelRow wCleanRow1) 0 = Cell.int 1) :=
  label_encode_pe_binary wInput wCleanRow1 (by decide)

/-! ## C2: classifier topology -/

/-- C2: the classifier has exactly the three hidden layers `[10, 20, 10]`,
two output classes, and a single combined real-valued feature column. -/
theorem classifier_topology :
    classifier.hiddenUnits = [10, 20, 10] ∧
    classifier.hiddenUnits.length = 3 ∧
    classifier.nClasses = 2 ∧
    classifier.featureColumns = [{ name := "", dimension := 2 }] ∧
    classifier.featureColumns.length = 1 :=
  ⟨rfl, rfl, rfl, rfl, rfl⟩

/-! ## C9: empty cleaned set makes prepare_data fail -/

/-- C9: when cleaning removes every row, `prepare_data` raises an error
instead of producing the two output files. -/
theorem empty_cleaned_fails (input : List (List String))
    (perm : List (List Cell)) (h : cleanedRows input = []) :
    (prepareData input perm).isOk = false := by
  unfold prepareData
  split
  · rfl
  · simp only [encodedDf, h, labelEncode, List.map_nil, getDummies,
      trainTestSplit, testCount, List.length_nil]
    rfl

/-- Witness for C9 at the concrete empty input. -/
theorem empty_cleaned_fails_witness :
    cleanedRows [] = [] ∧ (prepareData [] []).isOk = false :=
  ⟨rfl, empty_cleaned_fails [] [] rfl⟩

/-! ## Output-file claims: shared decomposition of a successful run -/

theorem prepareData_ok (input : List (List String)) (perm : List (List Cell))
    (p : Prepared) (h : prepareData input perm = Except.ok p) :
    p.trainFile = writeOutput
      { cols := (encodedDf input).cols,
        rows := perm.drop (testCount (encodedDf input).rows.length) } ∧
    p.testFile = writeOutput
      { cols := (encodedDf input).cols,
        rows := perm.take (testCount (encodedDf input).rows.length) } := by
  unfold prepareData at h
  split at h
  · exact Except.noConfusion h
  · simp only [trainTestSplit] at h
    by_cases hc :
        (encodedDf input).rows.length - testCount (encodedDf input).rows.length = 0
    · rw [if_pos hc] at h
      exact Except.noConfusion h
    · rw [if_neg hc] at h
      injection h with h2
      subst h2
      exact ⟨rfl, rfl⟩

theorem length_flatMap_congr {α β γ : Type} (L : List α)
    (f : α → List β) (g : α → List γ)
    (h : ∀ i ∈ L, (f i).length = (g i).length) :
    (L.flatMap f).length = (L.flatMap g).length := by
  induction L with
  | nil => rfl
  | cons a t ih =>
      simp only [List.flatMap_cons, List.length_append]
      rw [h a (List.mem_cons_self a t),
        ih (fun i hi => h i (List.mem_cons_of_mem a hi))]

theorem getDummies_row_length (rows : List (List Cell)) (r' : List Cell)
    (h : r' ∈ (getDummies rows).rows) :
    r'.length = (getDummies rows).cols.length := by
  simp only [getDummies] at h ⊢
  rcases List.mem_map.mp h with ⟨r, _, rfl⟩
  simp only [List.length_cons]
  have hl := length_flatMap_congr featureIdx
    (fun i => dummyRow (colValues rows i) (colCell r i))
    (fun i => (colValues rows i).map (fun v => header.getD i "" ++ "_" ++ cellStr v))
    (fun i _ => by simp [dummyRow])
  rw [hl]

/-! ## C3: row count written in the header -/

/-- C3: the `row_count` written in the first line of each output file
equals the number of data lines that follow the first line. -/
theorem row_count_matches_data_lines (input : List (List String))
    (perm : List (List Cell)) (p : Prepared)
    (h : prepareData input perm = Except.ok p) :
    writtenRowCount p.trainFile = toString (dataLineCount p.trainFile) ∧
    writtenRowCount p.testFile = toString (dataLineCount p.testFile) := by
  rcases prepareData_ok input perm p h with ⟨htr, hte⟩
  rw [htr, hte]
  simp [writeOutput, writtenRowCount, dataLineCount, shape0]

def wPerm : List (List Cell) := (encodedDf wInput).rows

def wPrepared : Prepared :=
  match prepareData wInput wPerm with
  | Except.ok p => p
  | Except.error _ => { trainFile := [], testFile := [] }

theorem wPrepared_ok : prepareData wInput wPerm = Except.ok wPrepared := rfl

/-- Witness for C3 at the concrete input `wInput`. -/
theorem row_count_matches_data_lines_witness :
    writtenRowCount wPrepared.trainFile = toString (dataLineCount wPrepared.trainFile) ∧
    writtenRowCount wPrepared.testFile = toString (dataLineCount wPrepared.testFile) :=
  row_count_matches_data_lines wInput wPerm wPrepared wPrepared_ok

/-! ## C10: both headers carry the same feature count -/

/-- C10: the `feature_count` written in the train file's header equals
the one written in the test file's header, and both equal the encoded
column count minus one. -/
theorem train_test_feature_count_eq (input : List (List String))
    (perm : List (List Cell)) (p : Prepared)
    (h : prepareData input perm = Except.ok p) :
    writtenFeatureCount p.trainFile = writtenFeatureCount p.testFile ∧
    writtenFeatureCount p.trainFile =
      toString ((encodedDf input).cols.length - 1) := by
  rcases prepareData_ok input perm p h with ⟨htr, hte⟩
  rw [htr, hte]
  simp [writeOutput, writtenFeatureCount, shape1]

/-- Witness for C10 at the concrete input `wInput`. -/
theorem train_test_feature_count_eq_witness :
    writtenFeatureCount wPrepared.trainFile = writtenFeatureCount wPrepared.testFile ∧
    writtenFeatureCount wPrepared.trainFile =
      toString ((encodedDf wInput).cols.length - 1) :=
  train_test_feature_count_eq wInput wPerm wPrepared wPrepared_ok

/-! ## C7: exact first-line format -/

/-- C7: the first line of each output file is exactly the row count,
then the feature count (total column count of the partition minus one),
then the original encoded header, and every data line of the file indeed
has `feature_count + 1` fields. -/
theorem output_first_line_format (input : List (List String))
    (perm : List (List Cell)) (p : Prepared)
    (hp : perm.Perm (encodedDf input).rows)
    (h : prepareData input perm = Except.ok p) :
    p.trainFile.headD [] =
      toString (dataLineCount p.trainFile) ::
        toString ((encodedDf input).cols.length - 1) :: (encodedDf input).cols ∧
    p.testFile.headD [] =
      toString (dataLineCount p.testFile) ::
        toString ((encodedDf input).cols.length - 1) :: (encodedDf input).cols ∧
    (∀ line ∈ p.trainFile.tail, line.length = (encodedDf input).cols.length) ∧
    (∀ line ∈ p.testFile.tail, line.length = (encodedDf input).cols.length) := by
  rcases prepareData_ok input perm p h with ⟨htr, hte⟩
  rw [htr, hte]
  refine ⟨?_, ?_, ?_, ?_⟩
  · simp [writeOutput, dataLineCount, shape0, shape1]
  · simp [writeOutput, dataLineCount, shape0, shape1]
  · intro line hl
    simp only [writeOutput, List.tail_cons] at hl
    rcases List.mem_map.mp hl with ⟨r, hr, rfl⟩
    rw [List.length_map]
    have hrm : r ∈ (encodedDf input).rows :=
      hp.mem_iff.mp (List.mem_of_mem_drop hr)
    exact getDummies_row_length (labelEncode (cleanedRows input)) r hrm
  · intro line hl
    simp only [writeOutput, List.tail_cons] at hl
    rcases List.mem_map.mp hl with ⟨r, hr, rfl⟩
    rw [List.length_map]
    have hrm : r ∈ (encodedDf input).rows :=
      hp.mem_iff.mp (List.mem_of_mem_take hr)
    exact getDummies_row_length (labelEncode (cleanedRows input)) r hrm

/-- Witness for C7 at the concrete input `wInput`. -/
theorem output_first_line_format_witness :
    wPrepared.trainFile.headD [] =
      toString (dataLineCount wPrepared.trainFile) ::
        toString ((encodedDf wInput).cols.length - 1) :: (encodedDf wInput).cols ∧
    wPrepared.testFile.headD [] =
      toString (dataLineCount wPrepared.testFile) ::
        toString ((encodedDf wInput).cols.length - 1) :: (encodedDf wInput).cols ∧
    (∀ line ∈ wPrepared.trainFile.tail, line.length = (encodedDf wInput).cols.length) ∧
    (∀ line ∈ wPrepared.testFile.tail, line.length = (encodedDf wInput).cols.length) :=
  output_first_line_format wInput wPerm wPrepared (List.Perm.refl _) wPrepared_ok

/-! ## C5: one-hot encoding -/

theorem colCell_mem_colValues (rows : List (List Cell)) (i : Nat)
    (r : List Cell) (hr : r ∈ rows) : colCell r i ∈ colValues rows i :=
  List.mem_dedup.mpr (List.mem_map_of_mem (fun s => colCell s i) hr)

theorem dummyRow_one_hot (vals : List Cell) (c : Cell)
    (hnd : vals.Nodup) (hm : c ∈ vals) :
    (dummyRow vals c).countP (fun x => x == Cell.int 1) = 1 := by
  unfold dummyRow
  rw [List.countP_map]
  have hcg : vals.countP ((fun x => x == Cell.int 1) ∘
      (fun v => if c = v then Cell.int 1 else Cell.int 0)) =
      vals.countP (fun v => v == c) := by
    apply List.countP_congr
    intro v _
    by_cases hcv : c = v
    · subst hcv
      simp
    · have hvc : (v == c) = false := by
        simp only [beq_eq_false_iff_ne, ne_eq]
        exact fun hvc => hcv hvc.symm
      simp [hcv, hvc]
  rw [hcg, ← List.count_eq_countP]
  exact List.count_eq_one_of_mem hnd hm

/-- C5: for every cleaned (and label-encoded) dataset, each non-label
column yields exactly one indicator column per distinct observed value
(the observed value list has no duplicates and contains exactly the
values occurring in the column), and in every encoded row exactly one
indicator among that column's indicators equals 1. -/
theorem one_hot_encoding_exact (input : List (List String)) (i : Nat)
    (r : List Cell) (_hi : i ∈ featureIdx)
    (hr : r ∈ labelEncode (cleanedRows input)) :
    (colValues (labelEncode (cleanedRows input)) i).Nodup ∧
    (∀ v, v ∈ colValues (labelEncode (cleanedRows input)) i ↔
      v ∈ (labelEncode (cleanedRows input)).map (fun s => colCell s i)) ∧
    (dummyRow (colValues (labelEncode (cleanedRows input)) i)
        (colCell r i)).countP (fun x => x == Cell.int 1) = 1 := by
  refine ⟨List.nodup_dedup _, fun v => List.mem_dedup, ?_⟩
  exact dummyRow_one_hot _ _ (List.nodup_dedup _)
    (colCell_mem_colValues _ i r hr)

/-- Witness for C5 at the concrete input `wInput`, column 1. -/
theorem one_hot_encoding_exact_witness :
    (colValues (labelEncode (cleanedRows wInput)) 1).Nodup ∧
    (∀ v, v ∈ colValues (labelEncode (cleanedRows wInput)) 1 ↔
      v ∈ (labelEncode (cleanedRows wInput)).map (fun s => colCell s 1)) ∧
    (dummyRow (colValues (labelEncode (cleanedRows wInput)) 1)
        (colCell (Cell.int 0 :: List.replicate 22 (Cell.str "a")) 1)).countP
      (fun x => x == Cell.int 1) = 1 :=
  one_hot_encoding_exact wInput 1
    (Cell.int 0 :: List.replicate 22 (Cell.str "a"))
    (by decide) (by decide)

/-! ## C6: split is a partition of the encoded dataset -/

/-- C6: for every permutation chosen by the random shuffle, the split of
the encoded dataset (rows identified by their pandas index, modelled by
`List.enum`) yields train and test sets with disjoint identities whose
union is, up to order, the whole encoded dataset. -/
theorem split_partition_disjoint_union (input : List (List String))
    (perm tr te : List (Nat × List Cell))
    (hp : perm.Perm (encodedDf input).rows.enum)
    (hs : trainTestSplit (encodedDf input).rows.enum perm = Except.ok (tr, te)) :
    (tr.map Prod.fst).Disjoint (te.map Prod.fst) ∧
    (tr ++ te).Perm (encodedDf input).rows.enum := by
  have hok : ¬((encodedDf input).rows.enum.length -
      testCount (encodedDf input).rows.enum.length = 0) := by
    intro h0
    simp only [trainTestSplit] at hs
    rw [if_pos h0] at hs
    exact Except.noConfusion hs
  have htr : perm.drop (testCount (encodedDf input).rows.enum.length) = tr ∧
      perm.take (testCount (encodedDf input).rows.enum.length) = te := by
    simp only [trainTestSplit] at hs
    rw [if_neg hok] at hs
    injection hs with h2
    exact ⟨congrArg Prod.fst h2, congrArg Prod.snd h2⟩
  rcases htr with ⟨h3, h4⟩
  subst h3
  subst h4
  have hnd : (perm.map Prod.fst).Nodup :=
    (hp.map Prod.fst).nodup_iff.mpr (List.nodup_enum_map_fst _)
  have hsplit := List.take_append_drop
    (testCount (encodedDf input).rows.enum.length) perm
  have hnd2 : ((perm.take (testCount (encodedDf input).rows.enum.length)).map Prod.fst ++
      (perm.drop (testCount (encodedDf input).rows.enum.length)).map Prod.fst).Nodup := by
    rw [← List.map_append, hsplit]
    exact hnd
  have hdisj := (List.nodup_append.mp hnd2).2.2
  refine ⟨hdisj.symm, ?_⟩
  have hu : (perm.drop (testCount (encodedDf input).rows.enum.length) ++
      perm.take (testCount (encodedDf input).rows.enum.length)).Perm perm := by
    have hc := @List.perm_append_comm _
      (perm.drop (testCount (encodedDf input).rows.enum.length))
      (perm.take (testCount (encodedDf input).rows.enum.length))
    rw [hsplit] at hc
    exact hc
  exact hu.trans hp

/-- Witness for C6 at the concrete input `wInput` with the identity
permutation of the indexed encoded rows. -/
theorem split_partition_disjoint_union_witness :
    ((((encodedDf wInput).rows.enum.drop 1).map Prod.fst).Disjoint
      (((encodedDf wInput).rows.enum.take 1).map Prod.fst)) ∧
    ((encodedDf wInput).rows.enum.drop 1 ++
      (encodedDf wInput).rows.enum.take 1).Perm (encodedDf wInput).rows.enum :=
  split_partition_disjoint_union wInput (encodedDf wInput).rows.enum
    ((encodedDf wInput).rows.enum.drop 1) ((encodedDf wInput).rows.enum.take 1)
    (List.Perm.refl _) rfl

/-! ## C8: split sizes -/

/-- C8: for every cleaned encoded dataset with at least two rows and
every permutation chosen by the unseeded shuffle, the split succeeds,
the test partition receives `ceil(0.1 * n)` rows (so `n ≤ 10 * test`
and `10 * test < n + 10`), and the train partition receives the
remaining rows. -/
theorem split_sizes (input : List (List String)) (perm : List (List Cell))
    (hp : perm.Perm (encodedDf input).rows)
    (h2 : 2 ≤ (encodedDf input).rows.length) :
    trainTestSplit (encodedDf input).rows perm =
      Except.ok (perm.drop (testCount (encodedDf input).rows.length),
                 perm.take (testCount (encodedDf input).rows.length)) ∧
    (perm.take (testCount (encodedDf input).rows.length)).length =
      testCount (encodedDf input).rows.length ∧
    (perm.drop (testCount (encodedDf input).rows.length)).length =
      (encodedDf input).rows.length - testCount (encodedDf input).rows.length ∧
    (encodedDf input).rows.length ≤ 10 * testCount (encodedDf input).rows.length ∧
    10 * testCount (encodedDf input).rows.length <
      (encodedDf input).rows.length + 10 := by
  have hperm : perm.length = (encodedDf input).rows.length := hp.length_eq
  have htc : testCount (encodedDf input).rows.length =
      ((encodedDf input).rows.length + 9) / 10 := rfl
  have hne : ¬((encodedDf input).rows.length -
      testCount (encodedDf input).rows.length = 0) := by
    rw [htc]
    omega
  refine ⟨?_, ?_, ?_, ?_, ?_⟩
  · simp only [trainTestSplit]
    rw [if_neg hne]
  · rw [List.length_take, hperm]
    rw [htc]
    omega
  · rw [List.length_drop, hperm]
  · rw [htc]
    omega
  · rw [htc]
    omega

/-- Witness for C8 at the concrete two-row input `wInput`. -/
theorem split_sizes_witness :
    trainTestSplit (encodedDf wInput).rows wPerm =
      Except.ok (wPerm.drop (testCount (encodedDf wInput).rows.length),
                 wPerm.take (testCount (encodedDf wInput).rows.length)) ∧
    (wPerm.take (testCount (encodedDf wInput).rows.length)).length =
      testCount (encodedDf wInput).rows.length ∧
    (wPerm.drop (testCount (encodedDf wInput).rows.length)).length =
      (encodedDf wInput).rows.length - testCount (encodedDf wInput).rows.length ∧
    (encodedDf wInput).rows.length ≤ 10 * testCount (encodedDf wInput).rows.length ∧
    10 * testCount (encodedDf wInput).rows.length <
      (encodedDf wInput).rows.length + 10 :=
  split_sizes wInput wPerm (List.Perm.refl _) (by decide)
